import Mathlib

/-!
Verification of the `show-bytes` byte-escaping printer.

The source (`src/lib.rs`) renders a finite sequence of bytes as printable
ASCII: each byte is classified once, in order, and emitted either verbatim
(graphic ASCII), as a backslash escape, or as a lowercase two-digit hex
escape; an optional configured quote character brackets the output.  The
embedding below models the byte source as a `List Nat`, the `std::fmt::Write`
sink as a record of two fallible operations on an explicit sink state, and
`fmt::Result` as `Option` (the Rust error type `fmt::Error` carries no data).
-/

namespace ShowBytes

/-- The `QuoteStyle` enum of the source: how, if at all, the printer quotes
the byte string. -/
inductive QuoteStyle where
  | None
  | Single
  | Double
  deriving DecidableEq, Repr

/-- The `Printer` struct of the source: a single field holding the chosen
quoting style. -/
structure Printer where
  quote_style : QuoteStyle
  deriving DecidableEq, Repr

/-- `Printer::new`: a printer with the chosen quoting style. -/
def Printer.new (quote_style : QuoteStyle) : Printer := ⟨quote_style⟩

/-- `impl Default for QuoteStyle`: returns `QuoteStyle::None`. -/
def QuoteStyle.default : QuoteStyle := QuoteStyle.None

/-- `impl Default for Printer`: a printer whose style is `QuoteStyle::None`. -/
def Printer.default : Printer := { quote_style := QuoteStyle.None }

/-- A `std::fmt::Write` sink: a sink-state type with the two write
operations the source calls (`write_str`, `write_char`), each returning the
next sink state on success and `none` on a write failure (`fmt::Error`). -/
structure Writer (σ : Type) where
  write_str : σ → String → Option σ
  write_char : σ → Char → Option σ

/-- The single-quote character `'` (0x27). -/
def squote : Char := Char.ofNat 0x27

/-- The double-quote character `"` (0x22). -/
def dquote : Char := Char.ofNat 0x22

/-- The backslash character `\` (0x5C). -/
def bslash : Char := Char.ofNat 0x5C

/-- The newline character (0x0A). -/
def newline : Char := Char.ofNat 0x0A

/-- The two-character escape for a single quote, `\'`. -/
def esc_squote : String := String.mk [bslash, squote]

/-- The two-character escape for a double quote, `\"`. -/
def esc_dquote : String := String.mk [bslash, dquote]

/-- The two-character escape for a backslash, `\\`. -/
def esc_bslash : String := String.mk [bslash, bslash]

/-- Rust `u8::is_ascii_graphic`: the byte lies in `b'!'..=b'~'`, that is
0x21–0x7E inclusive (excludes the space 0x20). -/
def is_ascii_graphic (b : Nat) : Bool := 0x21 ≤ b && b ≤ 0x7E

/-- One lowercase hexadecimal digit, as produced by the `{:02x}` formatter:
0–9 map to characters 0x30–0x39, 10–15 to 0x61–0x66. -/
def hexDigit (n : Nat) : Char :=
  if n < 10 then Char.ofNat (0x30 + n) else Char.ofNat (0x57 + n)

/-- The four-character output of `write!(writer, "\x{:02x}", byte)` for a
byte value: backslash, `x`, then the two lowercase zero-padded hex digits. -/
def hexEscape (b : Nat) : String :=
  String.mk [bslash, Char.ofNat 0x78, hexDigit (b / 16), hexDigit (b % 16)]

/-- The body of the per-byte `match` inside `Printer::write_to`: the five
arms in source order, each performing one write on the sink. -/
def Printer.write_byte {σ : Type} (p : Printer) (W : Writer σ) (s : σ) (byte : Nat) :
    Option σ :=
  if p.quote_style = QuoteStyle.Single ∧ byte = 0x27 then W.write_str s esc_squote
  else if p.quote_style = QuoteStyle.Double ∧ byte = 0x22 then W.write_str s esc_dquote
  else if byte = 0x5C then W.write_str s esc_bslash
  else if is_ascii_graphic byte then W.write_char s (Char.ofNat byte)
  else W.write_str s (hexEscape byte)

/-- The opening/closing `match self.quote_style` of `Printer::write_to`:
`None` writes nothing, `Single` writes `'`, `Double` writes `"`. -/
def Printer.write_quote {σ : Type} (p : Printer) (W : Writer σ) (s : σ) : Option σ :=
  match p.quote_style with
  | QuoteStyle.None => Option.some s
  | QuoteStyle.Single => W.write_char s squote
  | QuoteStyle.Double => W.write_char s dquote

/-- The `for byte_borrow in bytes` loop of `Printer::write_to`: process the
bytes in order, stopping at the first write failure (the `?` operator). -/
def Printer.write_loop {σ : Type} (p : Printer) (W : Writer σ) :
    List Nat → σ → Option σ
  | [], s => Option.some s
  | b :: rest, s =>
    match p.write_byte W s b with
    | Option.none => Option.none
    | Option.some s2 => p.write_loop W rest s2

/-- `Printer::write_to`: opening quote, the per-byte loop, closing quote,
each step propagating a sink failure via `?`. -/
def Printer.write_to {σ : Type} (p : Printer) (bytes : List Nat) (W : Writer σ) (s : σ) :
    Option σ :=
  match p.write_quote W s with
  | Option.none => Option.none
  | Option.some s1 =>
    match p.write_loop W bytes s1 with
    | Option.none => Option.none
    | Option.some s2 => p.write_quote W s2

/-- The `impl fmt::Write for String`: `write_str` is `push_str` and
`write_char` is `push`, both infallible. -/
def stringWriter : Writer String :=
  { write_str := fun s t => Option.some (s ++ t),
    write_char := fun s c => Option.some (s.push c) }

/-- `Printer::into_string`: render into a fresh `String`.  The `none` branch
models the `.expect(...)` panic of the source; it is proved unreachable
(`into_string_never_fails`). -/
def Printer.into_string (p : Printer) (bytes : List Nat) : String :=
  match p.write_to bytes stringWriter (String.mk []) with
  | Option.some out => out
  | Option.none => String.mk []

/-- The free function `show_bytes`:
`Printer::new(QuoteStyle::Double).into_string(bytes)`. -/
def show_bytes (bytes : List Nat) : String :=
  (Printer.new QuoteStyle.Double).into_string bytes

/-- Modelled from the spec: the convenience free function (named `println`
in the crate's doc examples) is not present in `src/`.  Per the spec it is
"render-to-string using a fixed default style, followed by writing the
result plus a trailing line terminator to the process's standard output
stream"; the fixed style of the crate's convenience path is `Double`.  The
model returns the exact character sequence written to standard output. -/
def println_stdout (bytes : List Nat) : String :=
  show_bytes bytes ++ String.mk [newline]

/-- The bracket byte of a quote style, if any: `'` (0x27) for `Single`,
`"` (0x22) for `Double`. -/
def QuoteStyle.bracket : QuoteStyle → Option Nat
  | QuoteStyle.None => Option.none
  | QuoteStyle.Single => Option.some 0x27
  | QuoteStyle.Double => Option.some 0x22

/-- The bracket string a style contributes at each end of the output. -/
def Printer.quote_str (p : Printer) : String :=
  match p.quote_style with
  | QuoteStyle.None => String.mk []
  | QuoteStyle.Single => String.mk [squote]
  | QuoteStyle.Double => String.mk [dquote]

/-- The pure output fragment one byte contributes, mirroring the arms of
`Printer.write_byte` with the string sink. -/
def Printer.fragment (p : Printer) (b : Nat) : String :=
  if p.quote_style = QuoteStyle.Single ∧ b = 0x27 then esc_squote
  else if p.quote_style = QuoteStyle.Double ∧ b = 0x22 then esc_dquote
  else if b = 0x5C then esc_bslash
  else if is_ascii_graphic b then String.mk [Char.ofNat b]
  else hexEscape b

/-- The concatenation of the per-byte fragments of a byte list. -/
def Printer.fragments (p : Printer) : List Nat → String
  | [] => String.mk []
  | b :: rest => p.fragment b ++ p.fragments rest

/-- Whether a character is a lowercase hexadecimal digit (0–9 or a–f). -/
def is_lower_hex (c : Char) : Bool :=
  (0x30 ≤ c.toNat && c.toNat ≤ 0x39) || (0x61 ≤ c.toNat && c.toNat ≤ 0x66)

/-- The numeric value of a lowercase hexadecimal digit character. -/
def hex_val (c : Char) : Nat :=
  if c.toNat ≤ 0x39 then c.toNat - 0x30 else c.toNat - 0x57

/-- Escaping every double-quote character of a character list as `\"`,
leaving every other character alone. -/
def escape_list : List Char → List Char
  | [] => []
  | c :: rest =>
    if c = dquote then bslash :: c :: escape_list rest else c :: escape_list rest

/-- Escaping every double quote of a string as `\"`. -/
def escape_dquotes (t : String) : String := String.mk (escape_list t.data)

/-- A concrete fallible sink for exercising failure propagation: its state
counts the characters accepted so far and every write beyond a capacity of
one character fails. -/
def capWriter : Writer Nat :=
  { write_str := fun n t => if n + t.length ≤ 1 then Option.some (n + t.length) else Option.none,
    write_char := fun n _ => if n < 1 then Option.some (n + 1) else Option.none }

lemma mk_append (l1 l2 : List Char) : String.mk l1 ++ String.mk l2 = String.mk (l1 ++ l2) :=
  rfl

lemma push_eq (s : String) (c : Char) : s.push c = s ++ String.mk [c] := by
  cases s
  simp [String.push, mk_append]

lemma str_append_assoc (a b c : String) : a ++ b ++ c = a ++ (b ++ c) := by
  cases a; cases b; cases c
  simp [mk_append, List.append_assoc]

lemma str_append_nil (a : String) : a ++ String.mk [] = a := by
  cases a
  simp [mk_append]

lemma str_nil_append (a : String) : String.mk [] ++ a = a := by
  cases a
  simp [mk_append]

lemma data_append (a b : String) : (a ++ b).data = a.data ++ b.data := by
  cases a; cases b
  rfl

lemma write_byte_string (p : Printer) (s : String) (b : Nat) :
    p.write_byte stringWriter s b = Option.some (s ++ p.fragment b) := by
  unfold Printer.write_byte Printer.fragment stringWriter
  split_ifs <;> simp [push_eq]

lemma write_loop_string (p : Printer) (bytes : List Nat) :
    ∀ s : String, p.write_loop stringWriter bytes s = Option.some (s ++ p.fragments bytes) := by
  induction bytes with
  | nil => intro s; simp [Printer.write_loop, Printer.fragments, str_append_nil]
  | cons b rest ih =>
    intro s
    simp [Printer.write_loop, Printer.fragments, write_byte_string, ih, str_append_assoc]

lemma write_quote_string (p : Printer) (s : String) :
    p.write_quote stringWriter s = Option.some (s ++ p.quote_str) := by
  obtain ⟨q⟩ := p
  cases q <;> simp [Printer.write_quote, Printer.quote_str, stringWriter, push_eq, str_append_nil]

lemma write_to_string (p : Printer) (bytes : List Nat) (s : String) :
    p.write_to bytes stringWriter s =
      Option.some (s ++ p.quote_str ++ p.fragments bytes ++ p.quote_str) := by
  simp [Printer.write_to, write_quote_string, write_loop_string]

lemma into_string_eq (p : Printer) (bytes : List Nat) :
    p.into_string bytes = p.quote_str ++ p.fragments bytes ++ p.quote_str := by
  simp [Printer.into_string, write_to_string, str_nil_append]

lemma escape_list_append (l1 l2 : List Char) :
    escape_list (l1 ++ l2) = escape_list l1 ++ escape_list l2 := by
  induction l1 with
  | nil => simp [escape_list]
  | cons c rest ih =>
    simp only [List.cons_append, escape_list]
    split_ifs <;> simp [ih]

set_option maxRecDepth 10000 in
lemma escape_fragment_none (b : Nat) (hb : b < 256) :
    escape_list ((Printer.new QuoteStyle.None).fragment b).data =
      ((Printer.new QuoteStyle.Double).fragment b).data := by
  revert hb
  revert b
  decide

lemma escape_fragments_none (bytes : List Nat) (hb : ∀ b ∈ bytes, b < 256) :
    escape_list ((Printer.new QuoteStyle.None).fragments bytes).data =
      ((Printer.new QuoteStyle.Double).fragments bytes).data := by
  induction bytes with
  | nil => simp [Printer.fragments, escape_list]
  | cons b rest ih =>
    simp only [Printer.fragments, data_append, escape_list_append]
    rw [escape_fragment_none b (hb b (List.mem_cons_self b rest)),
      ih (fun x hx => hb x (List.mem_cons_of_mem b hx))]

lemma write_loop_append (p : Printer) {σ : Type} (W : Writer σ) (xs ys : List Nat) :
    ∀ s : σ, p.write_loop W (xs ++ ys) s =
      (p.write_loop W xs s).bind (fun s2 => p.write_loop W ys s2) := by
  induction xs with
  | nil => intro s; simp [Printer.write_loop]
  | cons b rest ih =>
    intro s
    simp only [List.cons_append, Printer.write_loop]
    cases p.write_byte W s b with
    | none => simp
    | some s2 => simp [ih]

/-- C1: the convenience free function (modelled from the spec, see
`println_stdout`), applied to any byte sequence, is equivalent to
render-to-string using the fixed default style `Double`, followed by writing
that result plus one trailing line terminator to standard output. -/
theorem println_is_render_then_newline (bytes : List Nat) :
    println_stdout bytes =
      (Printer.new QuoteStyle.Double).into_string bytes ++ String.mk [newline] := rfl

/-- C4: the per-byte classification order — the quote matching the active
bracket style is escaped as `\'`/`\"` before the backslash and graphic
checks; a backslash byte 0x5C is escaped as `\\` under every style; and a
quote character not matching the active bracket is emitted unescaped as a
graphic character.  The concrete scenarios: `[0x27]` under `Single` renders
`'\''`, and under `Double` renders `"'"`. -/
theorem escape_order {σ : Type} (W : Writer σ) (s : σ) (q : QuoteStyle) :
    (Printer.new QuoteStyle.Single).write_byte W s 0x27 = W.write_str s esc_squote ∧
    (Printer.new QuoteStyle.Double).write_byte W s 0x22 = W.write_str s esc_dquote ∧
    (Printer.new q).write_byte W s 0x5C = W.write_str s esc_bslash ∧
    (Printer.new QuoteStyle.Double).write_byte W s 0x27 = W.write_char s squote ∧
    (Printer.new QuoteStyle.Single).write_byte W s 0x22 = W.write_char s dquote ∧
    (Printer.new QuoteStyle.None).write_byte W s 0x27 = W.write_char s squote ∧
    (Printer.new QuoteStyle.None).write_byte W s 0x22 = W.write_char s dquote ∧
    (Printer.new QuoteStyle.Single).into_string [0x27] =
      String.mk [squote, bslash, squote, squote] ∧
    (Printer.new QuoteStyle.Double).into_string [0x27] = String.mk [dquote, squote, dquote] := by
  refine ⟨?_, ?_, ?_, ?_, ?_, ?_, ?_, by decide, by decide⟩ <;>
    cases q <;> simp +decide [Printer.write_byte, Printer.new, squote, dquote]

/-- C6: rendering the empty byte sequence yields the empty string under
`None`, the two-character string of two double quotes under `Double`, and
the two-character string of two single quotes under `Single`. -/
theorem empty_render :
    (Printer.new QuoteStyle.None).into_string [] = String.mk [] ∧
    (Printer.new QuoteStyle.Double).into_string [] = String.mk [dquote, dquote] ∧
    (Printer.new QuoteStyle.Single).into_string [] = String.mk [squote, squote] := by
  decide

/-- C8: rendering is total — for every printer and byte sequence the write
into the in-memory `String` buffer succeeds, so `into_string` has no error
path (the `.expect` branch of the source is unreachable) and returns the
complete rendered string. -/
theorem into_string_never_fails (p : Printer) (bytes : List Nat) :
    p.write_to bytes stringWriter (String.mk []) = Option.some (p.into_string bytes) := by
  simp [write_to_string, into_string_eq, str_nil_append]

/-- C9: default construction yields the unquoted configuration —
`QuoteStyle`'s default is `None`, and a default-constructed `Printer` equals
one constructed with `QuoteStyle::None` explicitly. -/
theorem default_is_unquoted :
    QuoteStyle.default = QuoteStyle.None ∧
    Printer.default = Printer.new QuoteStyle.None ∧
    Printer.default.quote_style = QuoteStyle.None := by
  decide

/-- C10: `show_bytes` returns exactly
`Printer::new(QuoteStyle::Double).into_string(bytes)` — it fixes the
`Double` style and returns the rendered string; its last character is the
closing double quote, so no line terminator is appended. -/
theorem show_bytes_is_double_render (bytes : List Nat) :
    show_bytes bytes = (Printer.new QuoteStyle.Double).into_string bytes ∧
    (show_bytes bytes).data.getLast? = Option.some dquote := by
  refine ⟨rfl, ?_⟩
  have h : show_bytes bytes =
      (Printer.new QuoteStyle.Double).quote_str ++
        (Printer.new QuoteStyle.Double).fragments bytes ++
        (Printer.new QuoteStyle.Double).quote_str := into_string_eq _ _
  rw [h, data_append]
  exact List.getLast?_concat _

/-- C2: for every byte in 0x21–0x7E that is neither the backslash 0x5C nor
the active bracket character of the configured quote style, rendering emits
exactly that one character unchanged — as a single `write_char` call on any
sink, and as the sole fragment between the brackets in `into_string`. -/
theorem graphic_byte_unchanged {σ : Type} (q : QuoteStyle) (W : Writer σ) (s : σ) (b : Nat)
    (h1 : 0x21 ≤ b) (h2 : b ≤ 0x7E) (h3 : b ≠ 0x5C)
    (h4 : QuoteStyle.bracket q ≠ Option.some b) :
    (Printer.new q).write_byte W s b = W.write_char s (Char.ofNat b) ∧
    (Printer.new q).into_string [b] =
      (Printer.new q).quote_str ++ String.mk [Char.ofNat b] ++ (Printer.new q).quote_str := by
  have hg : is_ascii_graphic b = true := by
    simp only [is_ascii_graphic, Bool.and_eq_true, decide_eq_true_eq]
    omega
  have hc1 : ¬((Printer.new q).quote_style = QuoteStyle.Single ∧ b = 0x27) := by
    rintro ⟨hq, hbv⟩
    have hq2 : q = QuoteStyle.Single := hq
    subst hq2
    subst hbv
    exact h4 rfl
  have hc2 : ¬((Printer.new q).quote_style = QuoteStyle.Double ∧ b = 0x22) := by
    rintro ⟨hq, hbv⟩
    have hq2 : q = QuoteStyle.Double := hq
    subst hq2
    subst hbv
    exact h4 rfl
  have hfrag : (Printer.new q).fragment b = String.mk [Char.ofNat b] := by
    unfold Printer.fragment
    rw [if_neg hc1, if_neg hc2, if_neg h3, if_pos hg]
  constructor
  · unfold Printer.write_byte
    rw [if_neg hc1, if_neg hc2, if_neg h3, if_pos hg]
  · rw [into_string_eq]
    simp [Printer.fragments, hfrag, str_append_nil, str_append_assoc]

/-- C2 witness: byte 0x27 under `Double` style is graphic, not the active
bracket, and is emitted as that single character. -/
theorem graphic_byte_unchanged_witness :
    ((0x21:Nat) ≤ 0x27 ∧ (0x27:Nat) ≤ 0x7E ∧ (0x27:Nat) ≠ 0x5C ∧
      QuoteStyle.bracket QuoteStyle.Double ≠ Option.some 0x27) ∧
    ((Printer.new QuoteStyle.Double).write_byte stringWriter (String.mk []) 0x27 =
        stringWriter.write_char (String.mk []) (Char.ofNat 0x27) ∧
      (Printer.new QuoteStyle.Double).into_string [0x27] =
        (Printer.new QuoteStyle.Double).quote_str ++ String.mk [Char.ofNat 0x27] ++
          (Printer.new QuoteStyle.Double).quote_str) :=
  ⟨⟨by decide, by decide, by decide, by decide⟩,
    graphic_byte_unchanged QuoteStyle.Double stringWriter (String.mk []) 0x27
      (by decide) (by decide) (by decide) (by decide)⟩

/-- C3: for every byte value outside the ASCII graphic range (space 0x20,
control bytes, 0x7F, 0x80–0xFF), rendering emits exactly the four characters
backslash, `x`, and the byte's value as two lowercase zero-padded hexadecimal
digits, under every quote style. -/
theorem nongraphic_hex_escape {σ : Type} (q : QuoteStyle) (W : Writer σ) (s : σ) (b : Nat)
    (hb : b < 256) (hg : is_ascii_graphic b = false) :
    ∃ c1 c2 : Char,
      (Printer.new q).write_byte W s b =
        W.write_str s (String.mk [bslash, Char.ofNat 0x78, c1, c2]) ∧
      is_lower_hex c1 = true ∧ is_lower_hex c2 = true ∧
      16 * hex_val c1 + hex_val c2 = b := by
  have hng : ¬(0x21 ≤ b ∧ b ≤ 0x7E) := by
    intro hcon
    have hcon2 : is_ascii_graphic b = true := by
      simp only [is_ascii_graphic, Bool.and_eq_true, decide_eq_true_eq]
      exact hcon
    rw [hg] at hcon2
    exact Bool.false_ne_true hcon2
  have hdigit : ∀ n, n < 16 → is_lower_hex (hexDigit n) = true ∧ hex_val (hexDigit n) = n := by
    decide
  have hd1 : b / 16 < 16 := by omega
  have hd2 : b % 16 < 16 := by omega
  refine ⟨hexDigit (b / 16), hexDigit (b % 16), ?_, (hdigit _ hd1).1, (hdigit _ hd2).1, ?_⟩
  · have hc1 : ¬((Printer.new q).quote_style = QuoteStyle.Single ∧ b = 0x27) := by
      rintro ⟨_, hbv⟩
      omega
    have hc2 : ¬((Printer.new q).quote_style = QuoteStyle.Double ∧ b = 0x22) := by
      rintro ⟨_, hbv⟩
      omega
    have hc3 : ¬(b = 0x5C) := by omega
    have hc4 : ¬(is_ascii_graphic b = true) := by
      rw [hg]
      exact Bool.false_ne_true
    unfold Printer.write_byte
    rw [if_neg hc1, if_neg hc2, if_neg hc3, if_neg hc4]
    rfl
  · rw [(hdigit _ hd1).2, (hdigit _ hd2).2]
    omega

/-- C3 witness: the space byte 0x20 under style `None` is hex-escaped as a
four-character lowercase escape decoding back to 0x20. -/
theorem nongraphic_hex_escape_witness :
    ((0x20:Nat) < 256 ∧ is_ascii_graphic 0x20 = false) ∧
    (∃ c1 c2 : Char,
      (Printer.new QuoteStyle.None).write_byte stringWriter (String.mk []) 0x20 =
        stringWriter.write_str (String.mk []) (String.mk [bslash, Char.ofNat 0x78, c1, c2]) ∧
      is_lower_hex c1 = true ∧ is_lower_hex c2 = true ∧
      16 * hex_val c1 + hex_val c2 = 0x20) :=
  ⟨⟨by decide, by decide⟩,
    nongraphic_hex_escape QuoteStyle.None stringWriter (String.mk []) 0x20
      (by decide) (by decide)⟩

/-- C5: for every byte sequence, the `Double`-style rendering equals the
`None`-style rendering with every internal double quote replaced by `\"`,
then one `"` prepended and one `"` appended. -/
theorem double_wraps_none (bytes : List Nat) (hb : bytes.all (fun b => b < 256) = true) :
    (Printer.new QuoteStyle.Double).into_string bytes =
      String.mk [dquote] ++
        escape_dquotes ((Printer.new QuoteStyle.None).into_string bytes) ++
        String.mk [dquote] := by
  have hb2 : ∀ b ∈ bytes, b < 256 := by
    intro b hmem
    have := List.all_eq_true.mp hb b hmem
    exact of_decide_eq_true this
  rw [into_string_eq, into_string_eq]
  have hq_none : (Printer.new QuoteStyle.None).quote_str = String.mk [] := rfl
  have hq_double : (Printer.new QuoteStyle.Double).quote_str = String.mk [dquote] := rfl
  rw [hq_none, hq_double, str_nil_append, str_append_nil]
  have hesc : escape_dquotes ((Printer.new QuoteStyle.None).fragments bytes) =
      (Printer.new QuoteStyle.Double).fragments bytes := by
    unfold escape_dquotes
    rw [escape_fragments_none bytes hb2]
  rw [hesc]

/-- C5 witness: the sequence `H`, `"`, `\`, NUL — the `Double` rendering is
the quote-escaped `None` rendering wrapped in double quotes. -/
theorem double_wraps_none_witness :
    ([0x48, 0x22, 0x5C, 0x00].all (fun b => b < 256) = true) ∧
    (Printer.new QuoteStyle.Double).into_string [0x48, 0x22, 0x5C, 0x00] =
      String.mk [dquote] ++
        escape_dquotes ((Printer.new QuoteStyle.None).into_string [0x48, 0x22, 0x5C, 0x00]) ++
        String.mk [dquote] :=
  ⟨by decide, double_wraps_none [0x48, 0x22, 0x5C, 0x00] (by decide)⟩

/-- C7: if, after the opening quote and some prefix of the input have been
accepted, the sink fails on the next byte's write, then `write_to` returns
exactly that failure, and the remaining bytes are never processed — the
result is the same for every suffix after the failing byte. -/
theorem write_failure_aborts {σ : Type} (p : Printer) (W : Writer σ) (s s1 s2 : σ)
    (pre rest rest2 : List Nat) (b : Nat)
    (hq : p.write_quote W s = Option.some s1)
    (hpre : p.write_loop W pre s1 = Option.some s2)
    (hb : p.write_byte W s2 b = Option.none) :
    p.write_to (pre ++ b :: rest) W s = Option.none ∧
    p.write_to (pre ++ b :: rest) W s = p.write_to (pre ++ b :: rest2) W s := by
  have key : ∀ r : List Nat, p.write_loop W (pre ++ b :: r) s1 = Option.none := by
    intro r
    rw [write_loop_append, hpre]
    simp [Printer.write_loop, hb]
  constructor
  · simp [Printer.write_to, hq, key]
  · simp [Printer.write_to, hq, key]

/-- C7 witness: a capacity-one sink accepts the opening byte `A`, fails on
`B`, and `write_to` returns the failure no matter what follows `B`. -/
theorem write_failure_aborts_witness :
    ((Printer.new QuoteStyle.None).write_quote capWriter 0 = Option.some 0 ∧
      (Printer.new QuoteStyle.None).write_loop capWriter [0x41] 0 = Option.some 1 ∧
      (Printer.new QuoteStyle.None).write_byte capWriter 1 0x42 = Option.none) ∧
    ((Printer.new QuoteStyle.None).write_to ([0x41] ++ 0x42 :: [0x43]) capWriter 0 =
        Option.none ∧
      (Printer.new QuoteStyle.None).write_to ([0x41] ++ 0x42 :: [0x43]) capWriter 0 =
        (Printer.new QuoteStyle.None).write_to ([0x41] ++ 0x42 :: []) capWriter 0) :=
  ⟨⟨by decide, by decide, by decide⟩,
    write_failure_aborts (Printer.new QuoteStyle.None) capWriter 0 0 1 [0x41] [0x43] [] 0x42
      (by decide) (by decide) (by decide)⟩

end ShowBytes
